import Mathlib

/-!
Verification of the re-run admission queue and the Stripe payment
reconciliation core of the line-task-server repository.

The definitions below are a shallow embedding of the Python source:
  - app/routers/stripe_webhook.py  (signature verification, month
    arithmetic, idempotency ledger, entitlement update)
  - app/routers/webhook.py         (enqueue_rerun)
  - app/routers/admin.py           (admin_cancel_rerun, admin_delete_rerun)
  - app/db.py                      (schema, the partial unique index
    uq_rerun_active_task on task_rerun_queue(task_id)
    WHERE status IN (queued, running))

Machine conventions: timestamps that are only compared for identity
(requested_at, updated_at, created_at) are Nat ordinals; civil datetimes
in Asia/Tokyo are a record of year/month/day plus a seconds-in-day field,
ordered lexicographically exactly as Python datetime comparison orders
its fields.  The HMAC-SHA256 hex digest is an abstract function
parameter (the source calls the hmac library); its functional role —
equality comparison of digests via hmac.compare_digest — is preserved.
-/

namespace LineTaskServer

/-- A civil datetime in the Asia/Tokyo zone, as handled by the Python
source after conversion with astimezone(JST).  The seconds-in-day field
stands for the hour/minute/second/microsecond components, which
_add_months copies through unchanged (datetime.replace only changes
year, month and day). -/
structure JstDateTime where
  year : Nat
  month : Nat
  day : Nat
  sec : Nat
deriving DecidableEq, Repr

/-- Strict comparison of datetimes: Python compares datetime objects
field-lexicographically (year, then month, then day, then time). -/
def JstDateTime.ltb (a b : JstDateTime) : Bool :=
  if a.year < b.year then true
  else if b.year < a.year then false
  else if a.month < b.month then true
  else if b.month < a.month then false
  else if a.day < b.day then true
  else if b.day < a.day then false
  else decide (a.sec < b.sec)

/-- Non-strict comparison, derived from the strict one. -/
def JstDateTime.leb (a b : JstDateTime) : Bool :=
  !(JstDateTime.ltb b a)

/-- Python max(a, b) on two datetimes: returns b exactly when b > a. -/
def dtMax (a b : JstDateTime) : JstDateTime :=
  if JstDateTime.ltb a b then b else a

/-- Gregorian leap-year rule, as used by Python's calendar module. -/
def isLeapYear (y : Nat) : Bool :=
  (y % 4 == 0 && y % 100 != 0) || (y % 400 == 0)

/-- calendar.monthrange(year, month)[1]: the number of days in the
month.  Months outside 1..12 never reach this function in the source
(_add_months reduces the month into range first). -/
def monthrange (year month : Nat) : Nat :=
  match month with
  | 1 => 31
  | 2 => if isLeapYear year then 29 else 28
  | 3 => 31
  | 4 => 30
  | 5 => 31
  | 6 => 30
  | 7 => 31
  | 8 => 31
  | 9 => 30
  | 10 => 31
  | 11 => 30
  | 12 => 31
  | _ => 0

/-- app/routers/stripe_webhook.py, _add_months: month addition that
wraps year boundaries and clamps the day to the last day of the target
month. -/
def _add_months (dt : JstDateTime) (months : Nat) : JstDateTime :=
  let month0 := dt.month + months
  let year := dt.year + (month0 - 1) / 12
  let month := (month0 - 1) % 12 + 1
  let last_day := monthrange year month
  let day := min dt.day last_day
  { dt with year := year, month := month, day := day }

/-- The default whitespace stripped by Python str.strip (and by the
strip of header keys and values). -/
def isPySpace (c : Char) : Bool :=
  c = ' ' || c = '\t' || c = '\n' || c = '\r' || c = '\x0b' || c = '\x0c'

/-- Python str.strip() on a character list. -/
def pyStripChars (cs : List Char) : List Char :=
  ((cs.dropWhile isPySpace).reverse.dropWhile isPySpace).reverse

/-- Python str.strip(). -/
def pyStrip (s : String) : String :=
  String.mk (pyStripChars s.data)

/-- Python str.upper() on the ASCII currency codes the handler
uppercases. -/
def pyUpper (s : String) : String :=
  String.mk (s.data.map Char.toUpper)

/-- Python str.split(sep) for a one-character separator: every
occurrence of the separator ends a field, and adjacent separators
produce empty fields. -/
def splitOnChar (sep : Char) : List Char → List (List Char)
  | [] => [[]]
  | c :: rest =>
    if c = sep then [] :: splitOnChar sep rest
    else
      match splitOnChar sep rest with
      | [] => [[c]]
      | g :: gs => (c :: g) :: gs

/-- Python sep.join for a one-character separator. -/
def joinWith (sep : Char) : List (List Char) → List Char
  | [] => []
  | [g] => g
  | g :: gs => g ++ sep :: joinWith sep gs

/-- The numeric value of an ASCII decimal digit. -/
def digitVal (c : Char) : Option Nat :=
  if 48 ≤ c.toNat ∧ c.toNat ≤ 57 then some (c.toNat - 48) else none

def parseNatChars (cs : List Char) : Option Nat :=
  match cs with
  | [] => none
  | _ =>
    cs.foldl (fun acc c =>
      match acc, digitVal c with
      | some n, some d => some (n * 10 + d)
      | _, _ => none) (some 0)

/-- Python int(s) on an already-stripped string: optional sign followed
by decimal digits, error otherwise. -/
def parseIntChars (cs : List Char) : Option Int :=
  match cs with
  | '-' :: rest => (parseNatChars rest).map (fun n => -(n : Int))
  | '+' :: rest => (parseNatChars rest).map (fun n => (n : Int))
  | _ => (parseNatChars cs).map (fun n => (n : Int))

/-- The plan-code guard of stripe_webhook (line 165):
plan in {"1m", "3m", "6m"}. -/
def recognizedPlan (plan : Option String) : Bool :=
  plan == some ("1m") || plan == some ("3m") || plan == some ("6m")

/-- int(plan[0]) for the recognized plan codes: the leading digit (the
guard has already restricted the plan to 1m/3m/6m, whose first
character is a digit). -/
def planFirstDigit (plan : String) : Nat :=
  match plan.data with
  | [] => 0
  | c :: _ => (digitVal c).getD 0

/-- The base instant of the entitlement extension (stripe_webhook lines
166-172): the payment instant, pushed up to the stored expiry via
Python max when an expiry is stored. -/
def extend_base (expires_at : Option JstDateTime) (created_dt_jst : JstDateTime) :
    JstDateTime :=
  match expires_at with
  | some e => dtMax created_dt_jst e
  | none => created_dt_jst

/-- The new_expires_at computation of stripe_webhook (lines 163-173):
starts from the stored expiry and is only overwritten when the plan code
is one of 1m/3m/6m, in which case int(plan[0]) months are added to the
base instant. -/
def compute_new_expires (expires_at : Option JstDateTime)
    (created_dt_jst : JstDateTime) (plan : Option String) :
    Option JstDateTime :=
  if recognizedPlan plan then
    let months := planFirstDigit (plan.getD (""))
    some (_add_months (extend_base expires_at created_dt_jst) months)
  else
    expires_at

/-- stripe_webhook.py, _extract_task_id_and_plan: strip, then rsplit on
the last underscore into (task_id, plan). -/
def _extract_task_id_and_plan (client_reference_id : String) :
    String × Option String :=
  let s := pyStripChars client_reference_id.data
  if s = [] then ("", none)
  else if s.contains '_' then
    let parts := splitOnChar '_' s
    (String.mk (joinWith '_' parts.dropLast),
     some (String.mk (parts.getLast?.getD [])))
  else (String.mk s, none)

/-- The payment_amount display string of stripe_webhook (lines 144-151):
amount plus upper-cased currency when the amount is an integer and a
currency is present. -/
def format_payment_amount (amount_total : Option Int) (currency : String) :
    String :=
  match amount_total with
  | some n => if currency ≠ "" then toString n ++ " " ++ currency else toString n
  | none => ""

/-- Parsed Stripe-Signature header. -/
structure StripeSig where
  timestamp : Int
  v1 : String
deriving DecidableEq, Repr

/-- Split an item of the signature header on the first '=' (Python
item.split("=", 1)); items without '=' are skipped by the caller. -/
def splitOnFirstEq (item : List Char) : Option (List Char × List Char) :=
  match splitOnChar '=' item with
  | [] => none
  | [_] => none
  | k :: rest => some (k, joinWith '=' rest)

/-- Dictionary lookup over the accumulated key=value pairs: a later
assignment to the same key overwrites an earlier one, so the last pair
wins. -/
def dictGet (ps : List (String × String)) (k : String) : Option String :=
  (ps.reverse.find? (fun p => p.1 == k)).map (fun p => p.2)

/-- stripe_webhook.py, _parse_stripe_signature: comma-separated
key=value items, keys and values stripped; both t and v1 must be
present and t must parse as an integer (int() failure is caught by the
caller and treated as an invalid header). -/
def _parse_stripe_signature (header : String) : Option StripeSig :=
  let parts := (splitOnChar ',' header.data).filterMap
    (fun item => (splitOnFirstEq item).map
      (fun p => (String.mk (pyStripChars p.1), String.mk (pyStripChars p.2))))
  match dictGet parts ("t"), dictGet parts ("v1") with
  | some t, some v1 =>
    match parseIntChars t.data with
    | some ts => some { timestamp := ts, v1 := v1 }
    | none => none
  | _, _ => none

inductive SigError where
  | headerInvalid
  | timestampOutOfTolerance
  | signatureMismatch
deriving DecidableEq, Repr

/-- stripe_webhook.py, _verify_stripe_signature.  hmacSha256Hex is the
abstract digest function (secret, signed payload) -> hex digest; the
source compares digests with hmac.compare_digest, whose functional
meaning is string equality. -/
def _verify_stripe_signature (hmacSha256Hex : String → String → String)
    (raw_body header secret : String) (now_ts : Int) (tolerance_sec : Nat) :
    Except SigError Unit :=
  match _parse_stripe_signature header with
  | none => Except.error SigError.headerInvalid
  | some sig =>
    if (now_ts - sig.timestamp).natAbs > tolerance_sec then
      Except.error SigError.timestampOutOfTolerance
    else
      let signed_payload := toString sig.timestamp ++ "." ++ raw_body
      let expected := hmacSha256Hex secret signed_payload
      if expected = sig.v1 then Except.ok ()
      else Except.error SigError.signatureMismatch

/-! ## Data model: the tables touched by the core (app/db.py) -/

/-- A row of the tasks table (the columns the core reads or writes).
payment_date is a civil (year, month, day) triple in Asia/Tokyo;
created_at and updated_at are abstract timestamp ordinals. -/
structure Task where
  task_id : String
  user_id : String
  name : String
  pc_name : String
  enabled : Bool
  plan_tag : String
  schedule_value : String
  notes : String
  expires_at : Option JstDateTime
  payment_date : Option (Nat × Nat × Nat)
  payment_amount : Option String
  created_at : Nat
  updated_at : Nat
deriving DecidableEq, Repr

inductive RerunStatus where
  | queued
  | running
  | done
  | failed
  | canceled
deriving DecidableEq, Repr

/-- The active-status subset of the partial unique index
uq_rerun_active_task: status IN (queued, running). -/
def RerunStatus.isActive : RerunStatus → Bool
  | RerunStatus.queued => true
  | RerunStatus.running => true
  | _ => false

/-- A row of task_rerun_queue.  request_id models the UUID primary key
as a Nat; the columns the core never writes (locked_at, locked_by,
started_at, exit_code, stdout, stderr) are carried so frame conditions
are meaningful. -/
structure RerunRow where
  request_id : Nat
  task_id : String
  user_id : String
  pc_name : String
  requested_by : Option String
  status : RerunStatus
  requested_at : Nat
  locked_at : Option Nat
  locked_by : Option String
  started_at : Option Nat
  finished_at : Option Nat
  exit_code : Option Int
deriving DecidableEq, Repr

/-- The durable state of the core: the three tables it touches.
stripe_events rows are (event_id, payload) pairs; the primary key on
event_id is what the conditional insert ON CONFLICT (event_id) DO
NOTHING tests. -/
structure DB where
  tasks : List Task
  task_rerun_queue : List RerunRow
  stripe_events : List (String × String)
deriving DecidableEq, Repr

/-! ## Payment webhook processing (app/routers/stripe_webhook.py) -/

/-- The fields of a parsed Stripe event that the handler reads after
signature verification.  created_jst is the event creation instant
already converted to Asia/Tokyo civil time (the source converts the
epoch seconds with astimezone(JST); that timezone conversion is kept
abstract). -/
structure StripeEvent where
  id : String
  type : String
  client_reference_id : String
  amount_total : Option Int
  currency : String
  created_jst : JstDateTime
  payload : String
deriving DecidableEq, Repr

/-- The JSON bodies the handler can answer with after verification. -/
inductive StripeResult where
  | duplicate
  | ignored (event_type : String)
  | missingRef
  | taskNotFound (task_id : String)
  | applied (task_id : String) (plan : Option String)
      (payment_date : Nat × Nat × Nat) (payment_amount : String)
deriving DecidableEq, Repr

/-- Membership test of the idempotency ledger: the conflict tested by
INSERT INTO stripe_events ... ON CONFLICT (event_id) DO NOTHING. -/
def ledger_has (events : List (String × String)) (event_id : String) : Bool :=
  events.any (fun p => p.1 == event_id)

/-- stripe_webhook lines 122-188: event-type dispatch, composite
reference parsing, task lookup and the single UPDATE of the task row
(payment_date, payment_amount, expires_at via COALESCE, updated_at). -/
def stripe_webhook_apply (db : DB) (event : StripeEvent) (now : Nat) :
    DB × StripeResult :=
  if pyStrip event.type ≠ "checkout.session.completed" then
    (db, StripeResult.ignored (pyStrip event.type))
  else
    let parsed := _extract_task_id_and_plan event.client_reference_id
    let task_id_str := parsed.1
    let plan := parsed.2
    let created_dt_jst := event.created_jst
    let payment_date := (created_dt_jst.year, created_dt_jst.month, created_dt_jst.day)
    let payment_amount := format_payment_amount event.amount_total (pyUpper event.currency)
    if task_id_str = "" then (db, StripeResult.missingRef)
    else
      match db.tasks.find? (fun t => t.task_id == task_id_str) with
      | none => (db, StripeResult.taskNotFound task_id_str)
      | some row =>
        let new_expires_at := compute_new_expires row.expires_at created_dt_jst plan
        let tasks := db.tasks.map (fun t =>
          if t.task_id == task_id_str then
            { t with
              payment_date := some payment_date,
              payment_amount := some payment_amount,
              expires_at :=
                match new_expires_at with
                | some e => some e
                | none => t.expires_at,
              updated_at := now }
          else t)
        ({ db with tasks := tasks },
         StripeResult.applied task_id_str plan payment_date payment_amount)

/-- stripe_webhook lines 98-188 (after signature verification and JSON
parsing): the idempotency ledger gate — skipped entirely when the event
id is empty — followed by the entitlement application. -/
def stripe_webhook_process (db : DB) (event : StripeEvent) (now : Nat) :
    DB × StripeResult :=
  let event_id := pyStrip event.id
  if event_id ≠ "" then
    if ledger_has db.stripe_events event_id then (db, StripeResult.duplicate)
    else
      let db1 := { db with stripe_events := db.stripe_events ++ [(event_id, event.payload)] }
      stripe_webhook_apply db1 event now
  else
    stripe_webhook_apply db event now

/-! ## Rerun admission queue (app/routers/webhook.py, admin.py) -/

/-- translate(name, full-width-space, regular-space). -/
def translate_fullwidth (c : Char) : Char :=
  if c = '　' then ' ' else c

/-- The character class matched by the regular expression class of
whitespace characters in the name-normalizing regexp_replace. -/
def isPgSpace (c : Char) : Bool :=
  c = ' ' || c = '\t' || c = '\n' || c = '\x0b' || c = '\x0c' || c = '\r'

/-- Replace every maximal run of whitespace by a single regular space
(the global regexp_replace of a whitespace run with one space); the
Bool argument records whether the previous character was part of a
run. -/
def collapse_ws : Bool → List Char → List Char
  | _, [] => []
  | prev, c :: cs =>
    if isPgSpace c then
      if prev then collapse_ws true cs
      else ' ' :: collapse_ws true cs
    else c :: collapse_ws false cs

/-- The name normalization of enqueue_rerun's lookup query:
regexp_replace(translate(name, full-width-space, space),
whitespace-run, single space, global). -/
def normalize_name (s : String) : String :=
  String.mk (collapse_ws false (s.data.map translate_fullwidth))

/-- ORDER BY created_at DESC LIMIT 1 over the matching rows: pick the
row with the greatest created_at (the earlier row wins a tie, which the
SQL leaves unspecified). -/
def pick_latest : List Task → Option Task
  | [] => none
  | t :: ts =>
    match pick_latest ts with
    | none => some t
    | some b => if b.created_at > t.created_at then some b else some t

/-- The task-resolution query of enqueue_rerun: rows of the owner whose
normalized name equals the normalized typed name, newest created_at
first, limit 1. -/
def find_task_by_name (tasks : List Task) (user_id task_name : String) :
    Option Task :=
  pick_latest (tasks.filter (fun t =>
    t.user_id == user_id && normalize_name t.name == normalize_name task_name))

inductive EnqueueResult where
  | ok (request_id : Nat) (task_id : String) (pc_name : String)
  | notFound
  | disabled
  | alreadyPending
deriving DecidableEq, Repr

/-- The conflict predicate of the partial unique index
uq_rerun_active_task: an existing row for the same task with status in
(queued, running). -/
def rerun_active_pred (tid : String) (r : RerunRow) : Bool :=
  r.task_id == tid && r.status.isActive

def active_exists (queue : List RerunRow) (tid : String) : Bool :=
  queue.any (rerun_active_pred tid)

def activeCount (queue : List RerunRow) (tid : String) : Nat :=
  (queue.filter (rerun_active_pred tid)).length

/-- The core admission invariant: at most one active request per
task. -/
def AtMostOneActive (db : DB) : Prop :=
  ∀ tid, activeCount db.task_rerun_queue tid ≤ 1

/-- webhook.py, enqueue_rerun: resolve the typed name, refuse disabled
tasks, then a single conditional insert of a queued row.  The INSERT
uses ON CONFLICT DO NOTHING with no conflict target, so it is rejected
(RETURNING yields no request_id) on a violation of any unique
constraint of the table: the partial index uq_rerun_active_task or the
request_id primary key (fresh_id stands for the gen_random_uuid()
default). -/
def enqueue_rerun (db : DB) (fresh_id : Nat) (now : Nat)
    (user_id task_name : String) (requested_by : Option String) :
    DB × EnqueueResult :=
  match find_task_by_name db.tasks user_id task_name with
  | none => (db, EnqueueResult.notFound)
  | some row =>
    if !row.enabled then (db, EnqueueResult.disabled)
    else if active_exists db.task_rerun_queue row.task_id
        || db.task_rerun_queue.any (fun r => r.request_id == fresh_id) then
      (db, EnqueueResult.alreadyPending)
    else
      ({ db with task_rerun_queue := db.task_rerun_queue ++
          [{ request_id := fresh_id, task_id := row.task_id,
             user_id := user_id, pc_name := row.pc_name,
             requested_by := requested_by, status := RerunStatus.queued,
             requested_at := now, locked_at := none, locked_by := none,
             started_at := none, finished_at := none, exit_code := none }] },
       EnqueueResult.ok fresh_id row.task_id row.pc_name)

inductive CancelResult where
  | notFound
  | invalidTransition
  | ok
deriving DecidableEq, Repr

inductive DeleteResult where
  | notFound
  | activeRecordProtected
  | ok
deriving DecidableEq, Repr

/-- admin.py, admin_cancel_rerun: 404 when the request does not exist,
400 unless the status is exactly queued, otherwise UPDATE to canceled
stamping finished_at = NOW(). -/
def admin_cancel_rerun (db : DB) (request_id : Nat) (now : Nat) :
    DB × CancelResult :=
  match db.task_rerun_queue.find? (fun r => r.request_id == request_id) with
  | none => (db, CancelResult.notFound)
  | some row =>
    if row.status ≠ RerunStatus.queued then (db, CancelResult.invalidTransition)
    else
      ({ db with task_rerun_queue := db.task_rerun_queue.map (fun r =>
          if r.request_id == request_id then
            { r with status := RerunStatus.canceled, finished_at := some now }
          else r) },
       CancelResult.ok)

/-- admin.py, admin_delete_rerun: 404 when the request does not exist,
400 when the status is queued or running, otherwise DELETE the row. -/
def admin_delete_rerun (db : DB) (request_id : Nat) :
    DB × DeleteResult :=
  match db.task_rerun_queue.find? (fun r => r.request_id == request_id) with
  | none => (db, DeleteResult.notFound)
  | some row =>
    if row.status = RerunStatus.queued ∨ row.status = RerunStatus.running then
      (db, DeleteResult.activeRecordProtected)
    else
      ({ db with task_rerun_queue :=
          db.task_rerun_queue.filter (fun r => r.request_id != request_id) },
       DeleteResult.ok)

/-- N deliveries of the same enqueue call, in the order the storage
engine serializes them (the store is the sole arbiter of concurrency:
each conditional insert is atomic, so any concurrent execution is some
serialization). -/
def enqueue_many (db : DB) (ids : List Nat) (now : Nat)
    (user_id task_name : String) (requested_by : Option String) :
    DB × List EnqueueResult :=
  match ids with
  | [] => (db, [])
  | i :: rest =>
    let step := enqueue_rerun db i now user_id task_name requested_by
    let next := enqueue_many step.1 rest now user_id task_name requested_by
    (next.1, step.2 :: next.2)

/-! ## Order lemmas for civil datetimes and month addition -/

lemma ltb_iff (a b : JstDateTime) :
    JstDateTime.ltb a b = true ↔
      (a.year < b.year ∨ (a.year = b.year ∧ (a.month < b.month ∨ (a.month = b.month ∧
        (a.day < b.day ∨ (a.day = b.day ∧ a.sec < b.sec)))))) := by
  simp only [JstDateTime.ltb]
  split_ifs <;> simp <;> omega

lemma leb_char (a b : JstDateTime) :
    JstDateTime.leb a b = true ↔ ¬(JstDateTime.ltb b a = true) := by
  simp [JstDateTime.leb]

lemma add_months_facts (d : JstDateTime) (m : Nat) (h : 1 ≤ d.month) :
    (_add_months d m).year * 12 + (_add_months d m).month = d.year * 12 + d.month + m ∧
    1 ≤ (_add_months d m).month ∧ (_add_months d m).month ≤ 12 ∧
    (_add_months d m).day = min d.day (monthrange (_add_months d m).year (_add_months d m).month) ∧
    (_add_months d m).sec = d.sec := by
  simp only [_add_months]
  exact ⟨by omega, by omega, by omega, trivial, trivial⟩

lemma never_shorten_aux (cur paid : JstDateTime) (m : Nat) (hm : 1 ≤ m)
    (hc1 : 1 ≤ cur.month) (hc2 : cur.month ≤ 12)
    (hp1 : 1 ≤ paid.month) (hp2 : paid.month ≤ 12) :
    JstDateTime.leb cur (_add_months (dtMax paid cur) m) = true := by
  have hb : 1 ≤ (dtMax paid cur).month ∧ (dtMax paid cur).month ≤ 12 := by
    by_cases h : JstDateTime.ltb paid cur = true
    · simp only [dtMax, h, if_true]
      exact ⟨hc1, hc2⟩
    · simp only [dtMax, h, if_false]
      exact ⟨hp1, hp2⟩
  have hcb : JstDateTime.leb cur (dtMax paid cur) = true := by
    by_cases h : JstDateTime.ltb paid cur = true
    · simp only [dtMax, h, if_true, leb_char, ltb_iff]
      omega
    · simp only [dtMax, h, if_false, leb_char]
      exact h
  have hk := add_months_facts (dtMax paid cur) m hb.1
  rw [leb_char, ltb_iff] at hcb ⊢
  omega

/-! ## Claim C2 (corrected) and C3: the entitlement clock -/

lemma compute_recognized (exp : Option JstDateTime) (d : JstDateTime)
    (p : String) (k : Nat) (hp : recognizedPlan (some p) = true)
    (hk : planFirstDigit p = k) :
    compute_new_expires exp d (some p) =
      some (_add_months (extend_base exp d) k) := by
  simp [compute_new_expires, hp, hk]

/-- C2, counterexample: the claim says the extending plan codes are
exactly 3m/6m/12m, with 12m extending by twelve months and the legacy
1m code parsed but not extending.  On the code, an event with plan code
12m leaves the expiry unchanged, while 1m extends it by one month. -/
theorem claim_C2_counterexample :
    compute_new_expires none ⟨2024, 1, 15, 0⟩ (some ("12m")) ≠
      some (_add_months ⟨2024, 1, 15, 0⟩ 12) ∧
    compute_new_expires none ⟨2024, 1, 15, 0⟩ (some ("12m")) = none ∧
    compute_new_expires none ⟨2024, 1, 15, 0⟩ (some ("1m")) ≠ none ∧
    compute_new_expires none ⟨2024, 1, 15, 0⟩ (some ("1m")) =
      some ⟨2024, 2, 15, 0⟩ := by
  exact ⟨by decide, by decide, by decide, by decide⟩

/-- C2, amended: the plan codes that extend a task's expiry are exactly
the 1-month, 3-month and 6-month codes (1m, 3m, 6m), each extending by
its leading-digit month count from the base instant; any other code —
including 12m — is parsed but leaves the expiry unchanged. -/
theorem claim_C2_amended :
    (∀ exp d, compute_new_expires exp d (some ("12m")) = exp) ∧
    (∀ exp d, compute_new_expires exp d (some ("1m")) =
      some (_add_months (extend_base exp d) 1)) ∧
    (∀ exp d, compute_new_expires exp d (some ("3m")) =
      some (_add_months (extend_base exp d) 3)) ∧
    (∀ exp d, compute_new_expires exp d (some ("6m")) =
      some (_add_months (extend_base exp d) 6)) ∧
    (∀ exp d plan, recognizedPlan plan = false →
      compute_new_expires exp d plan = exp) ∧
    (∀ plan, recognizedPlan plan = true ↔
      (plan = some ("1m") ∨ plan = some ("3m") ∨ plan = some ("6m"))) := by
  refine ⟨?_, ?_, ?_, ?_, ?_, ?_⟩
  · intro exp d
    have h : recognizedPlan (some ("12m")) = false := by decide
    simp [compute_new_expires, h]
  · intro exp d
    exact compute_recognized exp d ("1m") 1 (by decide) (by decide)
  · intro exp d
    exact compute_recognized exp d ("3m") 3 (by decide) (by decide)
  · intro exp d
    exact compute_recognized exp d ("6m") 6 (by decide) (by decide)
  · intro exp d plan h
    simp [compute_new_expires, h]
  · intro plan
    simp only [recognizedPlan, Bool.or_eq_true, beq_iff_eq]
    tauto

/-- C2, amended, witness. -/
theorem claim_C2_amended_witness :
    compute_new_expires (some ⟨2025, 3, 1, 0⟩) ⟨2025, 4, 2, 3⟩ (some ("9m")) =
      some ⟨2025, 3, 1, 0⟩ ∧
    (recognizedPlan (some ("3m")) = true ↔
      (some ("3m") = some ("1m") ∨ some ("3m") = some ("3m") ∨
       some ("3m") = some ("6m"))) := by
  exact ⟨claim_C2_amended.2.2.2.2.1 (some ⟨2025, 3, 1, 0⟩) ⟨2025, 4, 2, 3⟩
    (some ("9m")) (by decide), claim_C2_amended.2.2.2.2.2 (some ("3m"))⟩

/-- C3: the Entitlement Clock computes the base instant as
max(paidAt, currentExpiry) when an expiry is stored — equivalently, the
stored expiry exactly when it lies in the future of paidAt — and as
paidAt otherwise; it then adds the plan's whole-month count with
calendar month arithmetic that wraps year boundaries (the linearized
year*12+month index advances by exactly the month count) and clamps the
day to the last valid day of the resulting month; every paidAt on
Jan 31 with a 3m plan and no stored expiry yields Apr 30 of the same
year; and a renewal never shortens the remaining entitlement. -/
theorem claim_C3_entitlement_clock :
    (∀ paid cur, extend_base (some cur) paid =
      (if JstDateTime.ltb paid cur then cur else paid)) ∧
    (∀ paid, extend_base none paid = paid) ∧
    (∀ exp d, compute_new_expires exp d (some ("3m")) =
      some (_add_months (extend_base exp d) 3)) ∧
    (∀ y s, compute_new_expires none ⟨y, 1, 31, s⟩ (some ("3m")) =
      some ⟨y, 4, 30, s⟩) ∧
    (∀ d m, 1 ≤ d.month →
      (_add_months d m).year * 12 + (_add_months d m).month =
        d.year * 12 + d.month + m ∧
      (_add_months d m).day =
        min d.day (monthrange (_add_months d m).year (_add_months d m).month)) ∧
    (∀ cur paid plan new, 1 ≤ cur.month → cur.month ≤ 12 →
      1 ≤ paid.month → paid.month ≤ 12 →
      recognizedPlan plan = true →
      compute_new_expires (some cur) paid plan = some new →
      JstDateTime.leb cur new = true) := by
  refine ⟨fun paid cur => rfl, fun paid => rfl, ?_, ?_, ?_, ?_⟩
  · intro exp d
    exact compute_recognized exp d ("3m") 3 (by decide) (by decide)
  · intro y s
    rw [compute_recognized none ⟨y, 1, 31, s⟩ ("3m") 3 (by decide) (by decide)]
    show some (_add_months ⟨y, 1, 31, s⟩ 3) = _
    simp [_add_months, monthrange]
  · intro d m h
    have hf := add_months_facts d m h
    exact ⟨hf.1, hf.2.2.2.1⟩
  · intro cur paid plan new hc1 hc2 hp1 hp2 hrec hcomp
    have hplan : (plan = some ("1m") ∨ plan = some ("3m")) ∨ plan = some ("6m") := by
      simpa [recognizedPlan] using hrec
    have hbase : extend_base (some cur) paid = dtMax paid cur := rfl
    rcases hplan with (h | h) | h <;> subst h
    · rw [compute_recognized (some cur) paid ("1m") 1 (by decide) (by decide),
        hbase] at hcomp
      simp only [Option.some.injEq] at hcomp
      rw [← hcomp]
      exact never_shorten_aux cur paid 1 (by omega) hc1 hc2 hp1 hp2
    · rw [compute_recognized (some cur) paid ("3m") 3 (by decide) (by decide),
        hbase] at hcomp
      simp only [Option.some.injEq] at hcomp
      rw [← hcomp]
      exact never_shorten_aux cur paid 3 (by omega) hc1 hc2 hp1 hp2
    · rw [compute_recognized (some cur) paid ("6m") 6 (by decide) (by decide),
        hbase] at hcomp
      simp only [Option.some.injEq] at hcomp
      rw [← hcomp]
      exact never_shorten_aux cur paid 6 (by omega) hc1 hc2 hp1 hp2

/-- C3, witness: the spec's own renewal-stacking example — a stored
expiry of 2024-06-30 with a 6m payment on 2024-05-01 yields 2024-12-30
(extending from the stored future expiry), which does not shorten the
entitlement. -/
theorem claim_C3_witness :
    (_add_months ⟨2024, 3, 31, 7⟩ 11).year * 12 +
        (_add_months ⟨2024, 3, 31, 7⟩ 11).month = 2024 * 12 + 3 + 11 ∧
    JstDateTime.leb ⟨2024, 6, 30, 0⟩ ⟨2024, 12, 30, 0⟩ = true := by
  constructor
  · exact ((claim_C3_entitlement_clock.2.2.2.2.1 ⟨2024, 3, 31, 7⟩ 11
      (by decide)).1)
  · have h := claim_C3_entitlement_clock.2.2.2.2.2 ⟨2024, 6, 30, 0⟩
      ⟨2024, 5, 1, 0⟩ (some ("6m")) ⟨2024, 12, 30, 0⟩
      (by decide) (by decide) (by decide) (by decide) (by decide) (by decide)
    exact h

/-! ## Claim C5: payment-webhook signature verification -/

/-- C5: once the signature header parses to a timestamp t and digest
v1, the request is rejected with a timestamp-out-of-tolerance error
whenever t deviates from server time by more than 300 seconds — even if
the digest is valid for that timestamp, since the digest is never
consulted in that branch; within tolerance, a digest that does not
equal the HMAC-SHA256 over timestamp.body keyed by the secret is
rejected as a signature mismatch (the source compares with the
constant-time hmac.compare_digest, whose result is digest equality);
and the verification succeeds exactly when both checks pass. -/
theorem claim_C5_signature_verification
    (hmacSha256Hex : String → String → String)
    (raw_body header secret : String) (now_ts : Int) (sig : StripeSig)
    (hparse : _parse_stripe_signature header = some sig) :
    ((now_ts - sig.timestamp).natAbs > 300 →
      _verify_stripe_signature hmacSha256Hex raw_body header secret now_ts 300 =
        Except.error SigError.timestampOutOfTolerance) ∧
    ((now_ts - sig.timestamp).natAbs ≤ 300 →
      hmacSha256Hex secret (toString sig.timestamp ++ "." ++ raw_body) ≠ sig.v1 →
      _verify_stripe_signature hmacSha256Hex raw_body header secret now_ts 300 =
        Except.error SigError.signatureMismatch) ∧
    (_verify_stripe_signature hmacSha256Hex raw_body header secret now_ts 300 =
        Except.ok () ↔
      ((now_ts - sig.timestamp).natAbs ≤ 300 ∧
       hmacSha256Hex secret (toString sig.timestamp ++ "." ++ raw_body) = sig.v1)) := by
  simp only [_verify_stripe_signature, hparse]
  refine ⟨?_, ?_, ?_⟩
  · intro h
    rw [if_pos h]
  · intro h hne
    rw [if_neg (by omega), if_neg hne]
  · constructor
    · intro h
      by_cases h1 : (now_ts - sig.timestamp).natAbs > 300
      · rw [if_pos h1] at h
        exact absurd h (by simp)
      · rw [if_neg h1] at h
        by_cases h2 : hmacSha256Hex secret (toString sig.timestamp ++ "." ++ raw_body) = sig.v1
        · exact ⟨by omega, h2⟩
        · rw [if_neg h2] at h
          exact absurd h (by simp)
    · intro h
      rw [if_neg (by omega), if_pos h.2]

/-- C5, witness. -/
theorem claim_C5_witness :
    _verify_stripe_signature (fun _ _ => ("aa")) ("body") ("t=0,v1=aa") ("sec")
        1000 300 = Except.error SigError.timestampOutOfTolerance ∧
    _verify_stripe_signature (fun _ _ => ("zz")) ("body") ("t=0,v1=aa") ("sec")
        100 300 = Except.error SigError.signatureMismatch ∧
    _verify_stripe_signature (fun _ _ => ("aa")) ("body") ("t=0,v1=aa") ("sec")
        100 300 = Except.ok () := by
  refine ⟨?_, ?_, ?_⟩
  · exact (claim_C5_signature_verification (fun _ _ => ("aa")) ("body")
      ("t=0,v1=aa") ("sec") 1000 ⟨0, ("aa")⟩ (by decide)).1 (by decide)
  · exact (claim_C5_signature_verification (fun _ _ => ("zz")) ("body")
      ("t=0,v1=aa") ("sec") 100 ⟨0, ("aa")⟩ (by decide)).2.1 (by decide) (by decide)
  · exact (claim_C5_signature_verification (fun _ _ => ("aa")) ("body")
      ("t=0,v1=aa") ("sec") 100 ⟨0, ("aa")⟩ (by decide)).2.2.mpr
      ⟨by decide, by decide⟩

/-! ## Queue lemmas -/

lemma pick_latest_eq_none {l : List Task} (h : pick_latest l = none) : l = [] := by
  cases l with
  | nil => rfl
  | cons a l =>
    exfalso
    simp only [pick_latest] at h
    cases hl : pick_latest l with
    | none => rw [hl] at h; exact Option.noConfusion h
    | some b =>
      rw [hl] at h
      dsimp only at h
      by_cases hbc : b.created_at > a.created_at
      · rw [if_pos hbc] at h; exact Option.noConfusion h
      · rw [if_neg hbc] at h; exact Option.noConfusion h

lemma pick_latest_spec {l : List Task} {t : Task} (h : pick_latest l = some t) :
    t ∈ l ∧ ∀ t2 ∈ l, t2.created_at ≤ t.created_at := by
  induction l generalizing t with
  | nil => exact Option.noConfusion h
  | cons a l ih =>
    simp only [pick_latest] at h
    cases hl : pick_latest l with
    | none =>
      rw [hl] at h
      have hnil := pick_latest_eq_none hl
      subst hnil
      have ht : t = a := (Option.some.inj h).symm
      subst ht
      exact ⟨List.mem_cons_self _ _, by simp⟩
    | some b =>
      rw [hl] at h
      dsimp only at h
      have hb := ih hl
      by_cases hbc : b.created_at > a.created_at
      · rw [if_pos hbc] at h
        have ht : t = b := (Option.some.inj h).symm
        subst ht
        refine ⟨List.mem_cons_of_mem a hb.1, ?_⟩
        intro t2 ht2
        rcases List.mem_cons.mp ht2 with h2 | h2
        · subst h2; omega
        · exact hb.2 t2 h2
      · rw [if_neg hbc] at h
        have ht : t = a := (Option.some.inj h).symm
        subst ht
        refine ⟨List.mem_cons_self _ _, ?_⟩
        intro t2 ht2
        rcases List.mem_cons.mp ht2 with h2 | h2
        · subst h2; omega
        · have := hb.2 t2 h2; omega

lemma find_task_spec {tasks : List Task} {uid name : String} {t : Task}
    (h : find_task_by_name tasks uid name = some t) :
    t ∈ tasks ∧ t.user_id = uid ∧
      normalize_name t.name = normalize_name name ∧
      ∀ t2 ∈ tasks, t2.user_id = uid →
        normalize_name t2.name = normalize_name name →
        t2.created_at ≤ t.created_at := by
  unfold find_task_by_name at h
  have hs := pick_latest_spec h
  have hmem := List.mem_filter.mp hs.1
  have hpred := hmem.2
  simp only [Bool.and_eq_true, beq_iff_eq] at hpred
  refine ⟨hmem.1, hpred.1, hpred.2, ?_⟩
  intro t2 ht2 h1 h2
  exact hs.2 t2 (List.mem_filter.mpr ⟨ht2, by simp [h1, h2]⟩)

lemma find_task_none {tasks : List Task} {uid name : String}
    (h : ∀ t ∈ tasks, ¬(t.user_id = uid ∧
      normalize_name t.name = normalize_name name)) :
    find_task_by_name tasks uid name = none := by
  unfold find_task_by_name
  have : tasks.filter (fun t =>
      t.user_id == uid && normalize_name t.name == normalize_name name) = [] := by
    rw [List.filter_eq_nil_iff]
    intro t ht
    have := h t ht
    simp only [Bool.and_eq_true, beq_iff_eq]
    tauto
  rw [this]
  rfl

lemma activeCount_append (q : List RerunRow) (r : RerunRow) (tid : String) :
    activeCount (q ++ [r]) tid =
      activeCount q tid + (if rerun_active_pred tid r then 1 else 0) := by
  simp only [activeCount, List.filter_append]
  cases h : rerun_active_pred tid r <;> simp [h]

lemma active_exists_false_count {q : List RerunRow} {tid : String}
    (h : active_exists q tid = false) : activeCount q tid = 0 := by
  simp only [active_exists, List.any_eq_false] at h
  simp only [activeCount, List.length_eq_zero, List.filter_eq_nil_iff]
  intro r hr
  exact h r hr

lemma count_map_le (q : List RerunRow) (f : RerunRow → RerunRow) (tid : String)
    (hf : ∀ r, rerun_active_pred tid (f r) = true →
      rerun_active_pred tid r = true) :
    activeCount (q.map f) tid ≤ activeCount q tid := by
  induction q with
  | nil => simp [activeCount]
  | cons r q ih =>
    simp only [List.map_cons, activeCount, List.filter_cons] at *
    by_cases h1 : rerun_active_pred tid (f r) = true
    · have h2 := hf r h1
      simp only [h1, h2, if_true, List.length_cons]
      omega
    · have h1' : rerun_active_pred tid (f r) = false := by
        simpa using h1
      by_cases h2 : rerun_active_pred tid r = true
      · simp only [h1', h2, if_true, Bool.false_eq_true, if_false, List.length_cons]
        omega
      · have h2' : rerun_active_pred tid r = false := by simpa using h2
        simp only [h1', h2', Bool.false_eq_true, if_false]
        omega

lemma activeCount_filter_le (q : List RerunRow) (p : RerunRow → Bool) (tid : String) :
    activeCount (q.filter p) tid ≤ activeCount q tid := by
  simp only [activeCount]
  exact List.Sublist.length_le ((List.filter_sublist q).filter _)

/-! ## Example rows used by the concrete witnesses -/

/-- A task whose stored name uses a regular space. -/
def exTask : Task :=
  { task_id := "T1", user_id := "U1", name := "通勤バス 乗車記録",
    pc_name := "PC1", enabled := true, plan_tag := "paid",
    schedule_value := "", notes := "", expires_at := none,
    payment_date := none, payment_amount := none,
    created_at := 5, updated_at := 0 }

/-- An older task of the same owner whose name normalizes to the same
string (it was stored with a full-width space). -/
def exTaskOld : Task :=
  { exTask with task_id := "T0", name := "通勤バス　乗車記録", created_at := 3 }

/-- A disabled task. -/
def exTaskOff : Task :=
  { exTask with task_id := "T9", name := "夜間バッチ", enabled := false, created_at := 4 }

def exDB : DB :=
  { tasks := [exTask, exTaskOld, exTaskOff], task_rerun_queue := [],
    stripe_events := [] }

def exRowQueued : RerunRow :=
  { request_id := 11, task_id := "T1", user_id := "U1", pc_name := "PC1",
    requested_by := some ("alice"), status := RerunStatus.queued,
    requested_at := 1, locked_at := none, locked_by := none,
    started_at := none, finished_at := none, exit_code := none }

def exRowRunning : RerunRow :=
  { exRowQueued with request_id := 12, task_id := "T2", status := RerunStatus.running }

def exRowDone : RerunRow :=
  { exRowQueued with request_id := 13, task_id := "T3", status := RerunStatus.done, finished_at := some 9 }

def exDBQ : DB :=
  { exDB with task_rerun_queue := [exRowQueued, exRowRunning, exRowDone] }

/-! ## Claim C6: the enqueue result contract -/

/-- C6: enqueue always returns one of the four tagged results and never
escapes the queue boundary otherwise: NotFound (state unchanged) when
no task of the owner matches the normalized name, Disabled (state
unchanged, no row created) when the resolved task is disabled,
AlreadyPending (state unchanged) exactly when the conditional insert is
rejected by a storage uniqueness constraint, and otherwise Ok carrying
the new request_id, the task_id and the snapshotted pc_name, with
exactly the new queued row appended. -/
theorem claim_C6_enqueue_contract (db : DB) (fresh now : Nat)
    (uid name : String) (rb : Option String) :
    (find_task_by_name db.tasks uid name = none →
      enqueue_rerun db fresh now uid name rb = (db, EnqueueResult.notFound)) ∧
    (∀ row, find_task_by_name db.tasks uid name = some row →
      row.enabled = false →
      enqueue_rerun db fresh now uid name rb = (db, EnqueueResult.disabled)) ∧
    (∀ row, find_task_by_name db.tasks uid name = some row →
      row.enabled = true →
      ((enqueue_rerun db fresh now uid name rb).2 = EnqueueResult.alreadyPending ↔
        (active_exists db.task_rerun_queue row.task_id
          || db.task_rerun_queue.any (fun r => r.request_id == fresh)) = true)) ∧
    (∀ row, find_task_by_name db.tasks uid name = some row →
      row.enabled = true →
      (active_exists db.task_rerun_queue row.task_id
        || db.task_rerun_queue.any (fun r => r.request_id == fresh)) = false →
      enqueue_rerun db fresh now uid name rb =
        ({ db with task_rerun_queue := db.task_rerun_queue ++
            [{ request_id := fresh, task_id := row.task_id, user_id := uid,
               pc_name := row.pc_name, requested_by := rb,
               status := RerunStatus.queued, requested_at := now,
               locked_at := none, locked_by := none, started_at := none,
               finished_at := none, exit_code := none }] },
         EnqueueResult.ok fresh row.task_id row.pc_name)) ∧
    ((enqueue_rerun db fresh now uid name rb).2 = EnqueueResult.notFound ∨
     (enqueue_rerun db fresh now uid name rb).2 = EnqueueResult.disabled ∨
     (enqueue_rerun db fresh now uid name rb).2 = EnqueueResult.alreadyPending ∨
     ∃ rid tid pc, (enqueue_rerun db fresh now uid name rb).2 =
        EnqueueResult.ok rid tid pc) := by
  refine ⟨?_, ?_, ?_, ?_, ?_⟩
  · intro h
    simp [enqueue_rerun, h]
  · intro row hfind hen
    simp [enqueue_rerun, hfind, hen]
  · intro row hfind hen
    constructor
    · intro h
      by_contra hc
      have hc' : (active_exists db.task_rerun_queue row.task_id
          || db.task_rerun_queue.any (fun r => r.request_id == fresh)) = false := by
        simpa using hc
      simp [enqueue_rerun, hfind, hen, hc'] at h
    · intro h
      simp [enqueue_rerun, hfind, hen, h]
  · intro row hfind hen h
    simp [enqueue_rerun, hfind, hen, h]
  · unfold enqueue_rerun
    cases hfind : find_task_by_name db.tasks uid name with
    | none => simp
    | some row =>
      by_cases hen : row.enabled = true
      · by_cases h : (active_exists db.task_rerun_queue row.task_id
            || db.task_rerun_queue.any (fun r => r.request_id == fresh)) = true
        · simp [hen, h]
        · simp [hen, h]
      · have hen' : row.enabled = false := by simpa using hen
        simp [hen']

/-- C6, witness: on the example database, enqueuing the typed name
resolves task T1 and appends a queued row. -/
theorem claim_C6_witness :
    enqueue_rerun exDB 1 0 ("U1") ("通勤バス 乗車記録") none =
      ({ exDB with task_rerun_queue :=
          [{ request_id := 1, task_id := "T1", user_id := "U1",
             pc_name := "PC1", requested_by := none,
             status := RerunStatus.queued, requested_at := 0,
             locked_at := none, locked_by := none, started_at := none,
             finished_at := none, exit_code := none }] },
       EnqueueResult.ok 1 ("T1") ("PC1")) := by
  exact (claim_C6_enqueue_contract exDB 1 0 ("U1") ("通勤バス 乗車記録")
    none).2.2.2.1 exTask (by decide) (by decide) (by decide)

/-! ## Claim C7: cancel and delete transitions -/

/-- C7: for an existing request, cancel succeeds exactly when the
status is queued — it sets the status to canceled and stamps
finished_at, keeping every other row — and returns InvalidTransition
with the state untouched on a running or terminal request; delete
succeeds exactly when the status is terminal (done, failed or
canceled), removing exactly the rows with that request_id, and returns
ActiveRecordProtected with the state untouched on a queued or running
request. -/
theorem claim_C7_cancel_delete (db : DB) (rid now : Nat) (row : RerunRow)
    (hfind : db.task_rerun_queue.find? (fun r => r.request_id == rid) = some row) :
    (row.status = RerunStatus.queued →
      (admin_cancel_rerun db rid now).2 = CancelResult.ok ∧
      { row with status := RerunStatus.canceled, finished_at := some now } ∈
        (admin_cancel_rerun db rid now).1.task_rerun_queue ∧
      (∀ r ∈ db.task_rerun_queue, r.request_id ≠ rid →
        r ∈ (admin_cancel_rerun db rid now).1.task_rerun_queue) ∧
      (admin_cancel_rerun db rid now).1.task_rerun_queue.length =
        db.task_rerun_queue.length ∧
      (admin_cancel_rerun db rid now).1.tasks = db.tasks) ∧
    (row.status ≠ RerunStatus.queued →
      admin_cancel_rerun db rid now = (db, CancelResult.invalidTransition)) ∧
    (row.status = RerunStatus.done ∨ row.status = RerunStatus.failed ∨
        row.status = RerunStatus.canceled →
      (admin_delete_rerun db rid).2 = DeleteResult.ok ∧
      (∀ r, r ∈ (admin_delete_rerun db rid).1.task_rerun_queue ↔
        (r ∈ db.task_rerun_queue ∧ r.request_id ≠ rid))) ∧
    (row.status = RerunStatus.queued ∨ row.status = RerunStatus.running →
      admin_delete_rerun db rid = (db, DeleteResult.activeRecordProtected)) := by
  have hrowid : (row.request_id == rid) = true := by
    have h := List.find?_some hfind
    simpa using h
  have hrowmem : row ∈ db.task_rerun_queue := List.mem_of_find?_eq_some hfind
  refine ⟨?_, ?_, ?_, ?_⟩
  · intro hq
    have hnn : ¬(row.status ≠ RerunStatus.queued) := by simp [hq]
    simp only [admin_cancel_rerun, hfind]
    rw [if_neg hnn]
    refine ⟨by simp, ?_, ?_, by simp, by simp⟩
    · have := List.mem_map_of_mem (fun r =>
        if r.request_id == rid then
          { r with status := RerunStatus.canceled, finished_at := some now }
        else r) hrowmem
      simpa [hrowid] using this
    · intro r hr hne
      have := List.mem_map_of_mem (fun r =>
        if r.request_id == rid then
          { r with status := RerunStatus.canceled, finished_at := some now }
        else r) hr
      have hne' : (r.request_id == rid) = false := by
        simpa using hne
      simpa [hne'] using this
  · intro hnq
    simp [admin_cancel_rerun, hfind, hnq]
  · intro hterm
    have hna : ¬(row.status = RerunStatus.queued ∨ row.status = RerunStatus.running) := by
      rcases hterm with h | h | h <;> simp [h]
    simp only [admin_delete_rerun, hfind]
    rw [if_neg hna]
    refine ⟨by simp, ?_⟩
    intro r
    simp [List.mem_filter]
  · intro hact
    simp [admin_delete_rerun, hfind, hact]

/-- C7, witness: cancel succeeds on the queued example row and delete
is refused on it; delete succeeds on the done row and cancel is refused
on the running row. -/
theorem claim_C7_witness :
    (admin_cancel_rerun exDBQ 11 7).2 = CancelResult.ok ∧
    admin_delete_rerun exDBQ 11 = (exDBQ, DeleteResult.activeRecordProtected) ∧
    admin_cancel_rerun exDBQ 12 7 = (exDBQ, CancelResult.invalidTransition) ∧
    (admin_delete_rerun exDBQ 13).2 = DeleteResult.ok := by
  refine ⟨?_, ?_, ?_, ?_⟩
  · exact ((claim_C7_cancel_delete exDBQ 11 7 exRowQueued (by decide)).1
      (by decide)).1
  · exact (claim_C7_cancel_delete exDBQ 11 7 exRowQueued (by decide)).2.2.2
      (Or.inl (by decide))
  · exact (claim_C7_cancel_delete exDBQ 12 7 exRowRunning (by decide)).2.1
      (by decide)
  · exact ((claim_C7_cancel_delete exDBQ 13 0 exRowDone (by decide)).2.2.1
      (Or.inl (by decide))).1

/-! ## Claim C8: name normalization and resolution -/

/-- C8: enqueue resolves the typed name by comparing names after
replacing full-width spaces by regular spaces and collapsing whitespace
runs, so a typed name with a full-width space matches a stored name
with a regular space; among the owner's tasks whose names normalize
equal, the most recently created one is selected; and a name matching
no task of the owner yields NotFound without touching the state. -/
theorem claim_C8_name_resolution :
    (normalize_name ("通勤バス　乗車記録") = normalize_name ("通勤バス 乗車記録")) ∧
    (∀ tasks uid name t, find_task_by_name tasks uid name = some t →
      t ∈ tasks ∧ t.user_id = uid ∧
      normalize_name t.name = normalize_name name ∧
      ∀ t2 ∈ tasks, t2.user_id = uid →
        normalize_name t2.name = normalize_name name →
        t2.created_at ≤ t.created_at) ∧
    (∀ tasks uid name,
      (∀ t ∈ tasks, ¬(t.user_id = uid ∧
        normalize_name t.name = normalize_name name)) →
      find_task_by_name tasks uid name = none) ∧
    (∀ db fresh now uid name rb, find_task_by_name db.tasks uid name = none →
      enqueue_rerun db fresh now uid name rb = (db, EnqueueResult.notFound)) := by
  refine ⟨by decide, ?_, ?_, ?_⟩
  · intro tasks uid name t h
    exact find_task_spec h
  · intro tasks uid name h
    exact find_task_none h
  · intro db fresh now uid name rb h
    simp [enqueue_rerun, h]

/-- C8, witness: the typed full-width-space name resolves to the
newest example task, and an unknown name is NotFound. -/
theorem claim_C8_witness :
    (exTask ∈ exDB.tasks ∧ exTask.user_id = "U1" ∧
      normalize_name exTask.name = normalize_name ("通勤バス　乗車記録") ∧
      ∀ t2 ∈ exDB.tasks, t2.user_id = "U1" →
        normalize_name t2.name = normalize_name ("通勤バス　乗車記録") →
        t2.created_at ≤ exTask.created_at) ∧
    enqueue_rerun exDB 2 0 ("U1") ("存在しない") none =
      (exDB, EnqueueResult.notFound) := by
  constructor
  · exact claim_C8_name_resolution.2.1 exDB.tasks ("U1") ("通勤バス　乗車記録")
      exTask (by decide)
  · exact claim_C8_name_resolution.2.2.2 exDB 2 0 ("U1") ("存在しない") none
      (by decide)

/-! ## Claim C1: the at-most-one-active-per-task invariant -/

lemma activeCount_append_le (q : List RerunRow) (r : RerunRow) (tid : String)
    (hq : activeCount q tid ≤ 1) (h0 : activeCount q r.task_id = 0) :
    activeCount (q ++ [r]) tid ≤ 1 := by
  rw [activeCount_append]
  by_cases htid : rerun_active_pred tid r = true
  · have heq : tid = r.task_id := by
      simp only [rerun_active_pred, Bool.and_eq_true, beq_iff_eq] at htid
      exact htid.1.symm
    subst heq
    rw [h0]
    simp [htid]
  · have h' : rerun_active_pred tid r = false := by simpa using htid
    rw [h']
    simpa using hq

lemma enqueue_when_active (db : DB) (fresh now : Nat) (uid name : String)
    (rb : Option String) (row : Task)
    (hfind : find_task_by_name db.tasks uid name = some row)
    (hen : row.enabled = true)
    (hact : active_exists db.task_rerun_queue row.task_id = true) :
    enqueue_rerun db fresh now uid name rb = (db, EnqueueResult.alreadyPending) := by
  simp [enqueue_rerun, hfind, hen, hact]

lemma enqueue_many_pending (db : DB) (ids : List Nat) (now : Nat)
    (uid name : String) (rb : Option String) (row : Task)
    (hfind : find_task_by_name db.tasks uid name = some row)
    (hen : row.enabled = true)
    (hact : active_exists db.task_rerun_queue row.task_id = true) :
    enqueue_many db ids now uid name rb =
      (db, List.replicate ids.length EnqueueResult.alreadyPending) := by
  induction ids with
  | nil => rfl
  | cons i rest ih =>
    simp [enqueue_many, enqueue_when_active db i now uid name rb row hfind hen hact,
      ih, List.replicate_succ]

/-- C1: the at-most-one-active invariant is preserved by enqueue (the
conditional insert is decided by the storage-level partial-uniqueness
constraint, not by a prior read), by cancel and by delete; and when the
same enqueue is delivered N times (in whatever order the storage layer
serializes the atomic conditional inserts) against a task with no
active request, the first delivery succeeds and the other N-1 come back
AlreadyPending. -/
theorem claim_C1_admission_invariant :
    (∀ db fresh now uid name rb, AtMostOneActive db →
      AtMostOneActive (enqueue_rerun db fresh now uid name rb).1) ∧
    (∀ db rid now, AtMostOneActive db →
      AtMostOneActive (admin_cancel_rerun db rid now).1) ∧
    (∀ db rid, AtMostOneActive db →
      AtMostOneActive (admin_delete_rerun db rid).1) ∧
    (∀ db row i rest now uid name rb,
      find_task_by_name db.tasks uid name = some row →
      row.enabled = true →
      active_exists db.task_rerun_queue row.task_id = false →
      (∀ r ∈ db.task_rerun_queue, r.request_id ≠ i) →
      (enqueue_many db (i :: rest) now uid name rb).2 =
        EnqueueResult.ok i row.task_id row.pc_name ::
          List.replicate rest.length EnqueueResult.alreadyPending) := by
  refine ⟨?_, ?_, ?_, ?_⟩
  · intro db fresh now uid name rb hinv
    cases hfind : find_task_by_name db.tasks uid name with
    | none =>
      simp only [enqueue_rerun, hfind]
      exact hinv
    | some row =>
      simp only [enqueue_rerun, hfind]
      by_cases hen : row.enabled = true
      · by_cases hc : (active_exists db.task_rerun_queue row.task_id
            || db.task_rerun_queue.any (fun r => r.request_id == fresh)) = true
        · simp only [hen, Bool.not_true, Bool.false_eq_true, if_false, hc, if_true]
          exact hinv
        · have hc' : (active_exists db.task_rerun_queue row.task_id
              || db.task_rerun_queue.any (fun r => r.request_id == fresh)) = false := by
            simpa using hc
          have hact : active_exists db.task_rerun_queue row.task_id = false := by
            simp only [Bool.or_eq_false_iff] at hc'
            exact hc'.1
          simp only [hen, Bool.not_true, Bool.false_eq_true, if_false, hc']
          intro tid
          exact activeCount_append_le _ _ tid (hinv tid)
            (active_exists_false_count hact)
      · have hen' : row.enabled = false := by simpa using hen
        simp only [hen', Bool.not_false, if_true]
        exact hinv
  · intro db rid now hinv
    cases hfind : db.task_rerun_queue.find? (fun r => r.request_id == rid) with
    | none =>
      simp only [admin_cancel_rerun, hfind]
      exact hinv
    | some row =>
      simp only [admin_cancel_rerun, hfind]
      by_cases hq : row.status ≠ RerunStatus.queued
      · rw [if_pos hq]
        exact hinv
      · rw [if_neg hq]
        intro tid
        refine le_trans (count_map_le _ _ tid ?_) (hinv tid)
        intro r hr
        by_cases hid : (r.request_id == rid) = true
        · rw [if_pos hid] at hr
          simp only [rerun_active_pred, RerunStatus.isActive, Bool.and_eq_true] at hr
          exact absurd hr.2 (by simp)
        · rw [if_neg hid] at hr
          exact hr
  · intro db rid hinv
    cases hfind : db.task_rerun_queue.find? (fun r => r.request_id == rid) with
    | none =>
      simp only [admin_delete_rerun, hfind]
      exact hinv
    | some row =>
      simp only [admin_delete_rerun, hfind]
      by_cases hq : row.status = RerunStatus.queued ∨ row.status = RerunStatus.running
      · rw [if_pos hq]
        exact hinv
      · rw [if_neg hq]
        intro tid
        exact le_trans (activeCount_filter_le _ _ tid) (hinv tid)
  · intro db row i rest now uid name rb hfind hen hact hfresh
    have hanyid : db.task_rerun_queue.any (fun r => r.request_id == i) = false := by
      rw [List.any_eq_false]
      intro r hr
      simpa using hfresh r hr
    have hcond : (active_exists db.task_rerun_queue row.task_id
        || db.task_rerun_queue.any (fun r => r.request_id == i)) = false := by
      simp [hact, hanyid]
    have h2 : (enqueue_rerun db i now uid name rb).2 =
        EnqueueResult.ok i row.task_id row.pc_name := by
      simp [enqueue_rerun, hfind, hen, hcond]
    have htasks : (enqueue_rerun db i now uid name rb).1.tasks = db.tasks := by
      simp [enqueue_rerun, hfind, hen, hcond]
    have hactive : active_exists
        (enqueue_rerun db i now uid name rb).1.task_rerun_queue row.task_id = true := by
      simp only [enqueue_rerun, hfind, hen, Bool.not_true, Bool.false_eq_true,
        if_false, hcond]
      simp [active_exists, rerun_active_pred, RerunStatus.isActive]
    have hfind1 : find_task_by_name (enqueue_rerun db i now uid name rb).1.tasks
        uid name = some row := by
      rw [htasks]
      exact hfind
    simp only [enqueue_many]
    rw [h2, enqueue_many_pending ((enqueue_rerun db i now uid name rb).1) rest
      now uid name rb row hfind1 hen hactive]

/-- C1, witness: on the example database (no active requests) three
serialized deliveries of the same enqueue admit exactly one request,
and the invariant survives an enqueue, a cancel and a delete. -/
theorem claim_C1_witness :
    (enqueue_many exDB [1, 2, 3] 0 ("U1") ("通勤バス 乗車記録") none).2 =
      [EnqueueResult.ok 1 ("T1") ("PC1"), EnqueueResult.alreadyPending,
       EnqueueResult.alreadyPending] ∧
    AtMostOneActive (enqueue_rerun exDB 1 0 ("U1") ("通勤バス 乗車記録") none).1 ∧
    AtMostOneActive (admin_cancel_rerun exDBQ 11 7).1 ∧
    AtMostOneActive (admin_delete_rerun exDBQ 13).1 := by
  have hinv : AtMostOneActive exDB := by
    intro tid
    simp [activeCount, exDB]
  have hinvq : AtMostOneActive exDBQ := by
    intro tid
    by_cases e1 : tid = "T1"
    · subst e1
      decide
    · by_cases e2 : tid = "T2"
      · subst e2
        decide
      · have p1 : rerun_active_pred tid exRowQueued = false := by
          simp only [rerun_active_pred, exRowQueued, RerunStatus.isActive,
            Bool.and_true]
          rw [beq_eq_false_iff_ne]
          exact fun h => e1 h.symm
        have p2 : rerun_active_pred tid exRowRunning = false := by
          simp only [rerun_active_pred, exRowRunning, exRowQueued,
            RerunStatus.isActive, Bool.and_true]
          rw [beq_eq_false_iff_ne]
          exact fun h => e2 h.symm
        have p3 : rerun_active_pred tid exRowDone = false := by
          simp [rerun_active_pred, exRowDone, exRowQueued, RerunStatus.isActive]
        simp [activeCount, exDBQ, exDB, List.filter, p1, p2, p3]
  refine ⟨?_, ?_, ?_, ?_⟩
  · exact claim_C1_admission_invariant.2.2.2 exDB exTask 1 [2, 3] 0 ("U1")
      ("通勤バス 乗車記録") none (by decide) (by decide) (by decide)
      (by intro r hr; simp [exDB] at hr)
  · exact claim_C1_admission_invariant.1 exDB 1 0 ("U1") ("通勤バス 乗車記録")
      none hinv
  · exact claim_C1_admission_invariant.2.1 exDBQ 11 7 hinvq
  · exact claim_C1_admission_invariant.2.2.1 exDBQ 13 hinvq

/-! ## Stripe webhook processing lemmas -/

lemma apply_frame (db : DB) (event : StripeEvent) (now : Nat) :
    (stripe_webhook_apply db event now).1.stripe_events = db.stripe_events ∧
    (stripe_webhook_apply db event now).1.task_rerun_queue = db.task_rerun_queue ∧
    (∀ t ∈ db.tasks,
      t.task_id ≠ (_extract_task_id_and_plan event.client_reference_id).1 →
      t ∈ (stripe_webhook_apply db event now).1.tasks) := by
  simp only [stripe_webhook_apply]
  by_cases h1 : pyStrip event.type ≠ "checkout.session.completed"
  · rw [if_pos h1]
    exact ⟨rfl, rfl, fun t ht _ => ht⟩
  · rw [if_neg h1]
    by_cases h2 : (_extract_task_id_and_plan event.client_reference_id).1 = ""
    · rw [if_pos h2]
      exact ⟨rfl, rfl, fun t ht _ => ht⟩
    · rw [if_neg h2]
      cases hfind : db.tasks.find? (fun t =>
          t.task_id == (_extract_task_id_and_plan event.client_reference_id).1) with
      | none => exact ⟨rfl, rfl, fun t ht _ => ht⟩
      | some row =>
        refine ⟨rfl, rfl, ?_⟩
        intro t ht hne
        have hmem := List.mem_map_of_mem (fun t =>
          if t.task_id == (_extract_task_id_and_plan event.client_reference_id).1 then
            { t with
              payment_date := some (event.created_jst.year, event.created_jst.month,
                event.created_jst.day),
              payment_amount := some (format_payment_amount event.amount_total
                (pyUpper event.currency)),
              expires_at :=
                match compute_new_expires row.expires_at event.created_jst
                    (_extract_task_id_and_plan event.client_reference_id).2 with
                | some e => some e
                | none => t.expires_at,
              updated_at := now }
          else t) ht
        have hne' : (t.task_id ==
            (_extract_task_id_and_plan event.client_reference_id).1) = false := by
          simpa using hne
        simpa [hne'] using hmem

lemma apply_not_duplicate (db : DB) (event : StripeEvent) (now : Nat) :
    (stripe_webhook_apply db event now).2 ≠ StripeResult.duplicate := by
  simp only [stripe_webhook_apply]
  by_cases h1 : pyStrip event.type ≠ "checkout.session.completed"
  · rw [if_pos h1]
    simp
  · rw [if_neg h1]
    by_cases h2 : (_extract_task_id_and_plan event.client_reference_id).1 = ""
    · rw [if_pos h2]
      simp
    · rw [if_neg h2]
      cases hfind : db.tasks.find? (fun t =>
          t.task_id == (_extract_task_id_and_plan event.client_reference_id).1) with
      | none => simp
      | some row => simp

/-! ## Claim C4: idempotency per event id -/

/-- C4: for a payment event carrying a non-empty event id not yet in
the ledger, the first delivery records the id in the ledger via the
conditional insert and can touch at most the one task named by the
composite reference, and a second delivery of the same event returns
duplicate=true with the state completely unchanged. -/
theorem claim_C4_idempotency (db : DB) (event : StripeEvent) (now now2 : Nat)
    (hid : pyStrip event.id ≠ "")
    (hnew : ledger_has db.stripe_events (pyStrip event.id) = false) :
    ledger_has (stripe_webhook_process db event now).1.stripe_events
      (pyStrip event.id) = true ∧
    stripe_webhook_process (stripe_webhook_process db event now).1 event now2 =
      ((stripe_webhook_process db event now).1, StripeResult.duplicate) ∧
    (∀ t ∈ db.tasks,
      t.task_id ≠ (_extract_task_id_and_plan event.client_reference_id).1 →
      t ∈ (stripe_webhook_process db event now).1.tasks) := by
  have hstep : stripe_webhook_process db event now =
      stripe_webhook_apply
        { db with stripe_events :=
            db.stripe_events ++ [(pyStrip event.id, event.payload)] } event now := by
    simp only [stripe_webhook_process]
    rw [if_pos hid]
    simp only [hnew, Bool.false_eq_true, if_false]
  have hframe := apply_frame
    { db with stripe_events := db.stripe_events ++ [(pyStrip event.id, event.payload)] }
    event now
  have hledger : ledger_has (stripe_webhook_process db event now).1.stripe_events
      (pyStrip event.id) = true := by
    rw [hstep, hframe.1]
    simp [ledger_has]
  refine ⟨hledger, ?_, ?_⟩
  · have hgen : ∀ db2 : DB, ledger_has db2.stripe_events (pyStrip event.id) = true →
        stripe_webhook_process db2 event now2 = (db2, StripeResult.duplicate) := by
      intro db2 h2
      simp only [stripe_webhook_process]
      rw [if_pos hid, if_pos h2]
    exact hgen _ hledger
  · intro t ht hne
    rw [hstep]
    exact hframe.2.2 t ht hne

/-! ## Claim C9: events with a missing or empty id skip the ledger -/

/-- An example checkout-completed event with an empty event id; its
composite reference resolves the example task with a 3m plan. -/
def exEventNoId : StripeEvent :=
  { id := "", type := "checkout.session.completed",
    client_reference_id := "T1_3m", amount_total := none, currency := "",
    created_jst := ⟨2024, 1, 31, 0⟩, payload := "raw" }

/-- C9: when the event payload has a missing or empty id, the handler
skips the idempotency ledger entirely (the ledger is left untouched and
the duplicate acknowledgment can never be produced) and proceeds to
event-type dispatch; consequently delivering the same such event twice
applies the entitlement update twice, as the concrete replay of the
example event shows: the expiry moves Jan 31 -> Apr 30 -> Jul 30. -/
theorem claim_C9_empty_id_skips_ledger (db : DB) (event : StripeEvent) (now : Nat)
    (hid : pyStrip event.id = "") :
    ((stripe_webhook_process db event now).1.stripe_events = db.stripe_events ∧
     (stripe_webhook_process db event now).2 ≠ StripeResult.duplicate) ∧
    ((stripe_webhook_process exDB exEventNoId 1).1.tasks.find? (fun t =>
        t.task_id == "T1") = some { exTask with
          expires_at := some ⟨2024, 4, 30, 0⟩,
          payment_date := some (2024, 1, 31), payment_amount := some (""),
          updated_at := 1 } ∧
     (stripe_webhook_process (stripe_webhook_process exDB exEventNoId 1).1
        exEventNoId 2).1.tasks.find? (fun t => t.task_id == "T1") =
       some { exTask with
          expires_at := some ⟨2024, 7, 30, 0⟩,
          payment_date := some (2024, 1, 31), payment_amount := some (""),
          updated_at := 2 }) := by
  have hproc : stripe_webhook_process db event now =
      stripe_webhook_apply db event now := by
    simp only [stripe_webhook_process]
    rw [if_neg (by simpa using hid)]
  refine ⟨⟨?_, ?_⟩, by decide, by decide⟩
  · rw [hproc]
    exact (apply_frame db event now).1
  · rw [hproc]
    exact apply_not_duplicate db event now

/-- C9, witness. -/
theorem claim_C9_witness :
    (stripe_webhook_process exDB exEventNoId 1).1.stripe_events =
      exDB.stripe_events ∧
    (stripe_webhook_process exDB exEventNoId 1).2 ≠ StripeResult.duplicate := by
  exact (claim_C9_empty_id_skips_ledger exDB exEventNoId 1 (by decide)).1

/-- C4, witness: a concrete event delivered twice. -/
def exEvent1 : StripeEvent :=
  { exEventNoId with id := "evt_1" }

theorem claim_C4_witness :
    ledger_has (stripe_webhook_process exDB exEvent1 1).1.stripe_events
      (pyStrip exEvent1.id) = true ∧
    stripe_webhook_process (stripe_webhook_process exDB exEvent1 1).1 exEvent1 2 =
      ((stripe_webhook_process exDB exEvent1 1).1, StripeResult.duplicate) := by
  have h := claim_C4_idempotency exDB exEvent1 1 2 (by decide) (by decide)
  exact ⟨h.1, h.2.1⟩

/-! ## Claim C10: frame of the update under an unrecognized plan -/

lemma apply_applied_state (db : DB) (event : StripeEvent) (now : Nat) (row : Task)
    (htype : pyStrip event.type = "checkout.session.completed")
    (htid : (_extract_task_id_and_plan event.client_reference_id).1 ≠ "")
    (hfind : db.tasks.find? (fun t =>
      t.task_id == (_extract_task_id_and_plan event.client_reference_id).1) = some row) :
    stripe_webhook_apply db event now =
      ({ db with tasks := db.tasks.map (fun t =>
          if t.task_id == (_extract_task_id_and_plan event.client_reference_id).1 then
            { t with
              payment_date := some (event.created_jst.year, event.created_jst.month,
                event.created_jst.day),
              payment_amount := some (format_payment_amount event.amount_total
                (pyUpper event.currency)),
              expires_at :=
                match compute_new_expires row.expires_at event.created_jst
                    (_extract_task_id_and_plan event.client_reference_id).2 with
                | some e => some e
                | none => t.expires_at,
              updated_at := now }
          else t) },
       StripeResult.applied (_extract_task_id_and_plan event.client_reference_id).1
         (_extract_task_id_and_plan event.client_reference_id).2
         (event.created_jst.year, event.created_jst.month, event.created_jst.day)
         (format_payment_amount event.amount_total (pyUpper event.currency))) := by
  simp only [stripe_webhook_apply]
  rw [if_neg (fun hh => hh htype), if_neg htid, hfind]

/-- C10: a verified, non-duplicate checkout-completed event that
resolves to an existing task but carries an unrecognized plan code
leaves the task's expires_at unchanged (the computed value coalesces to
the stored one), while payment_date and payment_amount are overwritten
from the event and updated_at is refreshed; no other field of the task
is modified, no other task row changes, and the rerun queue is
untouched. -/
theorem claim_C10_unrecognized_plan_frame (db : DB) (event : StripeEvent)
    (now : Nat) (row : Task)
    (hnodup : pyStrip event.id = "" ∨
      ledger_has db.stripe_events (pyStrip event.id) = false)
    (htype : pyStrip event.type = "checkout.session.completed")
    (htid : (_extract_task_id_and_plan event.client_reference_id).1 ≠ "")
    (hfind : db.tasks.find? (fun t =>
      t.task_id == (_extract_task_id_and_plan event.client_reference_id).1) = some row)
    (hplan : recognizedPlan
      (_extract_task_id_and_plan event.client_reference_id).2 = false) :
    (stripe_webhook_process db event now).2 =
      StripeResult.applied (_extract_task_id_and_plan event.client_reference_id).1
        (_extract_task_id_and_plan event.client_reference_id).2
        (event.created_jst.year, event.created_jst.month, event.created_jst.day)
        (format_payment_amount event.amount_total (pyUpper event.currency)) ∧
    { row with
        payment_date := some (event.created_jst.year, event.created_jst.month,
          event.created_jst.day),
        payment_amount := some (format_payment_amount event.amount_total
          (pyUpper event.currency)),
        updated_at := now } ∈ (stripe_webhook_process db event now).1.tasks ∧
    (∀ t ∈ db.tasks,
      t.task_id ≠ (_extract_task_id_and_plan event.client_reference_id).1 →
      t ∈ (stripe_webhook_process db event now).1.tasks) ∧
    (stripe_webhook_process db event now).1.tasks.length = db.tasks.length ∧
    (stripe_webhook_process db event now).1.task_rerun_queue =
      db.task_rerun_queue := by
  obtain ⟨db1, hdb1, htasks1, hqueue1⟩ :
      ∃ db1, stripe_webhook_process db event now =
          stripe_webhook_apply db1 event now ∧
        db1.tasks = db.tasks ∧ db1.task_rerun_queue = db.task_rerun_queue := by
    by_cases hid : pyStrip event.id = ""
    · refine ⟨db, ?_, rfl, rfl⟩
      simp only [stripe_webhook_process]
      rw [if_neg (by simpa using hid)]
    · have hfresh : ledger_has db.stripe_events (pyStrip event.id) = false := by
        rcases hnodup with h | h
        · exact absurd h hid
        · exact h
      refine ⟨{ db with stripe_events :=
          db.stripe_events ++ [(pyStrip event.id, event.payload)] }, ?_, rfl, rfl⟩
      simp only [stripe_webhook_process]
      rw [if_pos hid]
      simp only [hfresh, Bool.false_eq_true, if_false]
  have hfind1 : db1.tasks.find? (fun t =>
      t.task_id == (_extract_task_id_and_plan event.client_reference_id).1) =
      some row := by
    rw [htasks1]
    exact hfind
  have happ := apply_applied_state db1 event now row htype htid hfind1
  have hb : (row.task_id ==
      (_extract_task_id_and_plan event.client_reference_id).1) = true := by
    simpa using List.find?_some hfind
  have hcomp : compute_new_expires row.expires_at event.created_jst
      (_extract_task_id_and_plan event.client_reference_id).2 = row.expires_at := by
    simp [compute_new_expires, hplan]
  have hfrow : (fun t =>
      if t.task_id == (_extract_task_id_and_plan event.client_reference_id).1 then
        { t with
          payment_date := some (event.created_jst.year, event.created_jst.month,
            event.created_jst.day),
          payment_amount := some (format_payment_amount event.amount_total
            (pyUpper event.currency)),
          expires_at :=
            match compute_new_expires row.expires_at event.created_jst
                (_extract_task_id_and_plan event.client_reference_id).2 with
            | some e => some e
            | none => t.expires_at,
          updated_at := now }
      else t) row =
      { row with
        payment_date := some (event.created_jst.year, event.created_jst.month,
          event.created_jst.day),
        payment_amount := some (format_payment_amount event.amount_total
          (pyUpper event.currency)),
        updated_at := now } := by
    rw [hcomp]
    simp only [hb, if_true]
    cases hexp : row.expires_at with
    | none => rfl
    | some e => rfl
  rw [hdb1, happ]
  refine ⟨rfl, ?_, ?_, ?_, hqueue1⟩
  · have hmem : row ∈ db1.tasks := by
      rw [htasks1]
      exact List.mem_of_find?_eq_some hfind
    have hmapped := List.mem_map_of_mem (fun t =>
      if t.task_id == (_extract_task_id_and_plan event.client_reference_id).1 then
        { t with
          payment_date := some (event.created_jst.year, event.created_jst.month,
            event.created_jst.day),
          payment_amount := some (format_payment_amount event.amount_total
            (pyUpper event.currency)),
          expires_at :=
            match compute_new_expires row.expires_at event.created_jst
                (_extract_task_id_and_plan event.client_reference_id).2 with
            | some e => some e
            | none => t.expires_at,
          updated_at := now }
      else t) hmem
    rw [hfrow] at hmapped
    exact hmapped
  · intro t ht hne
    have hne' : (t.task_id ==
        (_extract_task_id_and_plan event.client_reference_id).1) = false := by
      simpa using hne
    have ht1 : t ∈ db1.tasks := by
      rw [htasks1]
      exact ht
    have := List.mem_map_of_mem (fun t =>
      if t.task_id == (_extract_task_id_and_plan event.client_reference_id).1 then
        { t with
          payment_date := some (event.created_jst.year, event.created_jst.month,
            event.created_jst.day),
          payment_amount := some (format_payment_amount event.amount_total
            (pyUpper event.currency)),
          expires_at :=
            match compute_new_expires row.expires_at event.created_jst
                (_extract_task_id_and_plan event.client_reference_id).2 with
            | some e => some e
            | none => t.expires_at,
          updated_at := now }
      else t) ht1
    simpa [hne'] using this
  · simp [htasks1]

/-- C10, witness: the example task has no stored expiry and the event
carries the unrecognized plan code 9m; the update rewrites the payment
fields and leaves expires_at at none. -/
def exEvent9m : StripeEvent :=
  { exEventNoId with client_reference_id := "T1_9m" }

theorem claim_C10_witness :
    (stripe_webhook_process exDB exEvent9m 1).2 =
      StripeResult.applied (_extract_task_id_and_plan exEvent9m.client_reference_id).1
        (_extract_task_id_and_plan exEvent9m.client_reference_id).2
        (exEvent9m.created_jst.year, exEvent9m.created_jst.month,
          exEvent9m.created_jst.day)
        (format_payment_amount exEvent9m.amount_total (pyUpper exEvent9m.currency)) ∧
    { exTask with payment_date := some (2024, 1, 31), payment_amount := some (""), updated_at := 1 } ∈ (stripe_webhook_process exDB exEvent9m 1).1.tasks := by
  have h := claim_C10_unrecognized_plan_frame exDB exEvent9m 1 exTask
    (Or.inl (by decide)) (by decide) (by decide) (by decide) (by decide)
  exact ⟨h.1, h.2.1⟩

end LineTaskServer
